import Mathlib

/-!
# GPIO controller interface and virtual I/O latch

A shallow embedding of `fw/gpio.h` and of the `vgpio_*` helpers of
`verilog/dv/cocotb/gpio1_test/gpio1_test.c` (the copy of `vgpio_write_output` in
`system_integration_test.c` is textually the same).

Modelling choices:

* The bus is a map from 32-bit byte addresses to the word stored at that address.
  Every access of the source is a `volatile uint32_t` access: a load returns the
  word at the address and a store replaces it, both reduced modulo `2^32`.
* Every operation is written in state-passing style: it takes the bus and returns
  the bus it leaves behind (paired with the returned value when there is one).
* `uint8_t`, `uint16_t` and `uint32_t` parameters are natural numbers reduced modulo
  `2^8`, `2^16`, `2^32` on entry, as the C conversion at the call does.
* `int` is 32 bits wide; an `int` is represented by its two's complement bit
  pattern, a natural number below `2^32`.  The shift `1 << pin` of the pin helpers is
  defined by C only for `pin ≤ 30`; the statements about the values they write never
  leave that range.  The constant `(1 << 31)` is taken as the pattern `0x80000000`.
* The bus is plain storage.  The reaction of the peripheral and of the pads is hardware
  that is not part of the embedded sources; where a statement depends on it, it is a
  separate function on the bus, modelled from the specification and marked as such.
-/

namespace Gpio

/-- The bus: the 32-bit word stored at each byte address. -/
abbrev Mem := Nat → Nat

/-- A `volatile uint32_t` load: the value read is a `uint32_t`. -/
def load (mem : Mem) (addr : Nat) : Nat := mem addr % 2 ^ 32

/-- A `volatile uint32_t` store: the stored value is converted to `uint32_t`. -/
def store (mem : Mem) (addr val : Nat) : Mem :=
  fun a => if a = addr then val % 2 ^ 32 else mem a

def GPIO0_BASE : Nat := 0x30000000
def GPIO1_BASE : Nat := 0x30010000

def GPIO_DATAI_OFFSET : Nat := 0x0000
def GPIO_DATAO_OFFSET : Nat := 0x0004
def GPIO_DIR_OFFSET : Nat := 0x0008
def GPIO_IM_OFFSET : Nat := 0xFF00
def GPIO_MIS_OFFSET : Nat := 0xFF04
def GPIO_RIS_OFFSET : Nat := 0xFF08
def GPIO_IC_OFFSET : Nat := 0xFF0C

def VGPIO_REG_ADDR : Nat := 0x30FFFFFC

/-- Address denoted by the lvalue `GPIO_DATAI_REG(base)`; the sum is a `uint32_t`. -/
def GPIO_DATAI_REG (base : Nat) : Nat := (base + GPIO_DATAI_OFFSET) % 2 ^ 32
/-- Address denoted by the lvalue `GPIO_DATAO_REG(base)`. -/
def GPIO_DATAO_REG (base : Nat) : Nat := (base + GPIO_DATAO_OFFSET) % 2 ^ 32
/-- Address denoted by the lvalue `GPIO_DIR_REG(base)`. -/
def GPIO_DIR_REG (base : Nat) : Nat := (base + GPIO_DIR_OFFSET) % 2 ^ 32
/-- Address denoted by the lvalue `GPIO_IM_REG(base)`. -/
def GPIO_IM_REG (base : Nat) : Nat := (base + GPIO_IM_OFFSET) % 2 ^ 32
/-- Address denoted by the lvalue `GPIO_MIS_REG(base)`. -/
def GPIO_MIS_REG (base : Nat) : Nat := (base + GPIO_MIS_OFFSET) % 2 ^ 32
/-- Address denoted by the lvalue `GPIO_RIS_REG(base)`. -/
def GPIO_RIS_REG (base : Nat) : Nat := (base + GPIO_RIS_OFFSET) % 2 ^ 32
/-- Address denoted by the lvalue `GPIO_IC_REG(base)`. -/
def GPIO_IC_REG (base : Nat) : Nat := (base + GPIO_IC_OFFSET) % 2 ^ 32

/-- Bit pattern of the `int` expression `1 << pin` (C defines it for `pin ≤ 30`). -/
def shl1 (pin : Nat) : Nat := (1 <<< pin) % 2 ^ 32

/-- Bit pattern of the `int` expression `~x`. -/
def not32 (x : Nat) : Nat := 2 ^ 32 - 1 - x % 2 ^ 32

/-- `GPIO_DIR_REG(base) = pin_mask;` -/
def gpio_set_direction (base pin_mask : Nat) (mem : Mem) : Mem :=
  let base := base % 2 ^ 32
  let pin_mask := pin_mask % 2 ^ 8
  store mem (GPIO_DIR_REG base) pin_mask

/-- `GPIO_DATAO_REG(base) = value;` -/
def gpio_write (base value : Nat) (mem : Mem) : Mem :=
  let base := base % 2 ^ 32
  let value := value % 2 ^ 8
  store mem (GPIO_DATAO_REG base) value

/-- `return (uint8_t)(GPIO_DATAI_REG(base) & 0xFF);` -/
def gpio_read (base : Nat) (mem : Mem) : Nat × Mem :=
  let base := base % 2 ^ 32
  ((load mem (GPIO_DATAI_REG base) &&& 0xFF) % 2 ^ 8, mem)

/-- `uint8_t current = gpio_read(base); gpio_write(base, current | (1 << pin));` -/
def gpio_set_pin (base pin : Nat) (mem : Mem) : Mem :=
  let base := base % 2 ^ 32
  let pin := pin % 2 ^ 8
  let (current, mem) := gpio_read base mem
  gpio_write base (current ||| shl1 pin) mem

/-- `uint8_t current = gpio_read(base); gpio_write(base, current & ~(1 << pin));` -/
def gpio_clear_pin (base pin : Nat) (mem : Mem) : Mem :=
  let base := base % 2 ^ 32
  let pin := pin % 2 ^ 8
  let (current, mem) := gpio_read base mem
  gpio_write base (current &&& not32 (shl1 pin)) mem

/-- `uint8_t current = gpio_read(base); gpio_write(base, current ^ (1 << pin));` -/
def gpio_toggle_pin (base pin : Nat) (mem : Mem) : Mem :=
  let base := base % 2 ^ 32
  let pin := pin % 2 ^ 8
  let (current, mem) := gpio_read base mem
  gpio_write base (current ^^^ shl1 pin) mem

/-- `GPIO_IM_REG(base) = irq_mask;` -/
def gpio_enable_irq (base irq_mask : Nat) (mem : Mem) : Mem :=
  let base := base % 2 ^ 32
  let irq_mask := irq_mask % 2 ^ 32
  store mem (GPIO_IM_REG base) irq_mask

/-- `return GPIO_MIS_REG(base);` -/
def gpio_get_irq_status (base : Nat) (mem : Mem) : Nat × Mem :=
  let base := base % 2 ^ 32
  (load mem (GPIO_MIS_REG base), mem)

/-- `GPIO_IC_REG(base) = irq_mask;` -/
def gpio_clear_irq (base irq_mask : Nat) (mem : Mem) : Mem :=
  let base := base % 2 ^ 32
  let irq_mask := irq_mask % 2 ^ 32
  store mem (GPIO_IC_REG base) irq_mask

/-- `reg_val = *vgpio_reg; reg_val = (reg_val & 0xFFFF0000) | (value & 0xFFFF);
*vgpio_reg = reg_val;` -/
def vgpio_write_output (value : Nat) (mem : Mem) : Mem :=
  let value := value % 2 ^ 16
  let reg_val := load mem VGPIO_REG_ADDR
  let reg_val := ((reg_val &&& 0xFFFF0000) ||| (value &&& 0xFFFF)) % 2 ^ 32
  store mem VGPIO_REG_ADDR reg_val

/-- `reg_val = *vgpio_reg; return (uint16_t)((reg_val >> 16) & 0xFFFF);` -/
def vgpio_read_input (mem : Mem) : Nat × Mem :=
  let reg_val := load mem VGPIO_REG_ADDR
  (((reg_val >>> 16) &&& 0xFFFF) % 2 ^ 16, mem)

/-! Interrupt bit constants: each is the `int` expression `(1 << n)`, seen as a 32-bit
value.  `GPIO_IRQ_P7NE` is `(1 << 31)`, whose two's complement pattern is `0x80000000`. -/

def GPIO_IRQ_P0HI : Nat := shl1 0
def GPIO_IRQ_P1HI : Nat := shl1 1
def GPIO_IRQ_P2HI : Nat := shl1 2
def GPIO_IRQ_P3HI : Nat := shl1 3
def GPIO_IRQ_P4HI : Nat := shl1 4
def GPIO_IRQ_P5HI : Nat := shl1 5
def GPIO_IRQ_P6HI : Nat := shl1 6
def GPIO_IRQ_P7HI : Nat := shl1 7

def GPIO_IRQ_P0LO : Nat := shl1 8
def GPIO_IRQ_P1LO : Nat := shl1 9
def GPIO_IRQ_P2LO : Nat := shl1 10
def GPIO_IRQ_P3LO : Nat := shl1 11
def GPIO_IRQ_P4LO : Nat := shl1 12
def GPIO_IRQ_P5LO : Nat := shl1 13
def GPIO_IRQ_P6LO : Nat := shl1 14
def GPIO_IRQ_P7LO : Nat := shl1 15

def GPIO_IRQ_P0PE : Nat := shl1 16
def GPIO_IRQ_P1PE : Nat := shl1 17
def GPIO_IRQ_P2PE : Nat := shl1 18
def GPIO_IRQ_P3PE : Nat := shl1 19
def GPIO_IRQ_P4PE : Nat := shl1 20
def GPIO_IRQ_P5PE : Nat := shl1 21
def GPIO_IRQ_P6PE : Nat := shl1 22
def GPIO_IRQ_P7PE : Nat := shl1 23

def GPIO_IRQ_P0NE : Nat := shl1 24
def GPIO_IRQ_P1NE : Nat := shl1 25
def GPIO_IRQ_P2NE : Nat := shl1 26
def GPIO_IRQ_P3NE : Nat := shl1 27
def GPIO_IRQ_P4NE : Nat := shl1 28
def GPIO_IRQ_P5NE : Nat := shl1 29
def GPIO_IRQ_P6NE : Nat := shl1 30
def GPIO_IRQ_P7NE : Nat := shl1 31

/-- The level-high constants, in pin order. -/
def irqHI : List Nat :=
  [GPIO_IRQ_P0HI, GPIO_IRQ_P1HI, GPIO_IRQ_P2HI, GPIO_IRQ_P3HI,
    GPIO_IRQ_P4HI, GPIO_IRQ_P5HI, GPIO_IRQ_P6HI, GPIO_IRQ_P7HI]

/-- The level-low constants, in pin order. -/
def irqLO : List Nat :=
  [GPIO_IRQ_P0LO, GPIO_IRQ_P1LO, GPIO_IRQ_P2LO, GPIO_IRQ_P3LO,
    GPIO_IRQ_P4LO, GPIO_IRQ_P5LO, GPIO_IRQ_P6LO, GPIO_IRQ_P7LO]

/-- The positive-edge constants, in pin order. -/
def irqPE : List Nat :=
  [GPIO_IRQ_P0PE, GPIO_IRQ_P1PE, GPIO_IRQ_P2PE, GPIO_IRQ_P3PE,
    GPIO_IRQ_P4PE, GPIO_IRQ_P5PE, GPIO_IRQ_P6PE, GPIO_IRQ_P7PE]

/-- The negative-edge constants, in pin order. -/
def irqNE : List Nat :=
  [GPIO_IRQ_P0NE, GPIO_IRQ_P1NE, GPIO_IRQ_P2NE, GPIO_IRQ_P3NE,
    GPIO_IRQ_P4NE, GPIO_IRQ_P5NE, GPIO_IRQ_P6NE, GPIO_IRQ_P7NE]

/-- The thirty-two interrupt bit constants. -/
def irqAll : List Nat := irqHI ++ irqLO ++ irqPE ++ irqNE

/-- The operations of `fw/gpio.h`, each with its arguments other than `base`. -/
inductive GpioOp where
  | set_direction (pin_mask : Nat)
  | write (value : Nat)
  | read
  | set_pin (pin : Nat)
  | clear_pin (pin : Nat)
  | toggle_pin (pin : Nat)
  | enable_irq (irq_mask : Nat)
  | get_irq_status
  | clear_irq (irq_mask : Nat)

/-- The bus that a call of the operation on the bank at `base` leaves behind. -/
def GpioOp.run (base : Nat) : GpioOp → Mem → Mem
  | .set_direction pin_mask, mem => gpio_set_direction base pin_mask mem
  | .write value, mem => gpio_write base value mem
  | .read, mem => (gpio_read base mem).2
  | .set_pin pin, mem => gpio_set_pin base pin mem
  | .clear_pin pin, mem => gpio_clear_pin base pin mem
  | .toggle_pin pin, mem => gpio_toggle_pin base pin mem
  | .enable_irq irq_mask, mem => gpio_enable_irq base irq_mask mem
  | .get_irq_status, mem => (gpio_get_irq_status base mem).2
  | .clear_irq irq_mask, mem => gpio_clear_irq base irq_mask mem

/-- The calls whose arguments fit the parameter types and whose shift `1 << pin` C
defines: a byte mask or value, a pin index of at most 30, a 32-bit interrupt mask. -/
def GpioOp.defined : GpioOp → Bool
  | .set_direction pin_mask => decide (pin_mask < 2 ^ 8)
  | .write value => decide (value < 2 ^ 8)
  | .read => true
  | .set_pin pin => decide (pin ≤ 30)
  | .clear_pin pin => decide (pin ≤ 30)
  | .toggle_pin pin => decide (pin ≤ 30)
  | .enable_irq irq_mask => decide (irq_mask < 2 ^ 32)
  | .get_irq_status => true
  | .clear_irq irq_mask => decide (irq_mask < 2 ^ 32)

/-- The seven register addresses of the bank at `base`. -/
def bankRegs (base : Nat) : List Nat :=
  [GPIO_DATAI_REG base, GPIO_DATAO_REG base, GPIO_DIR_REG base, GPIO_IM_REG base,
    GPIO_MIS_REG base, GPIO_RIS_REG base, GPIO_IC_REG base]

/-- The fourteen bank register addresses and the address of the virtual I/O latch. -/
def allRegs : List Nat :=
  bankRegs GPIO0_BASE ++ bankRegs GPIO1_BASE ++ [VGPIO_REG_ADDR]

/-- Modelled from the spec: the interrupt logic of the peripheral, hardware of this
repository that is absent from `src/`.  "MIS: masked interrupt status, asserted bits are
those raw-pending AND enabled" (glossary: "RIS bits that are also enabled in IM"): after a
bus access the MIS word presents `RIS & IM`. -/
def hw_masked_status (base : Nat) (mem : Mem) : Mem :=
  store mem (GPIO_MIS_REG base)
    (load mem (GPIO_RIS_REG base) &&& load mem (GPIO_IM_REG base))

/-- Modelled from the spec: the pads in the looped-back simulation environment, hardware
and test bench of this repository that are absent from `src/`.  "A pin's DATAI bit reflects
the physical level regardless of DIR; writes to DATAO only take observable effect on pins
whose DIR bit is 1 (output)": a pin whose DIR bit is 1 is at the level of its DATAO bit, a
pin whose DIR bit is 0 stays at the externally driven level that DATAI already shows. -/
def hw_loopback (base : Nat) (mem : Mem) : Mem :=
  let dir := load mem (GPIO_DIR_REG base) &&& 0xFF
  let datao := load mem (GPIO_DATAO_REG base) &&& 0xFF
  let datai := load mem (GPIO_DATAI_REG base) &&& 0xFF
  store mem (GPIO_DATAI_REG base) ((datao &&& dir) ||| (datai &&& (0xFF - dir)))

/-! ## Bit-level helper lemmas -/

theorem and_0xFF (d : Nat) : d &&& 0xFF = d % 2 ^ 8 :=
  Nat.and_pow_two_sub_one_eq_mod d 8

theorem testBit_shl1 (p q : Nat) (hp : p < 32) :
    (shl1 p).testBit q = decide (q = p) := by
  unfold shl1
  rw [Nat.testBit_mod_two_pow, Nat.one_shiftLeft, Nat.testBit_two_pow]
  by_cases h : q = p
  · subst h; simp [hp]
  · have h2 : ¬ p = q := fun e => h e.symm
    simp [h, h2]

theorem testBit_not32 (x q : Nat) :
    (not32 x).testBit q = (decide (q < 32) && !(x % 2 ^ 32).testBit q) := by
  unfold not32
  have hx : x % 2 ^ 32 < 2 ^ 32 := Nat.mod_lt _ (by norm_num)
  have := Nat.testBit_two_pow_sub_succ hx q
  rw [show 2 ^ 32 - 1 - x % 2 ^ 32 = 2 ^ 32 - (x % 2 ^ 32 + 1) by omega]
  exact this

theorem testBit_one_shl (p q : Nat) : (1 <<< p).testBit q = decide (q = p) := by
  rw [Nat.one_shiftLeft, Nat.testBit_two_pow]
  by_cases h : q = p
  · subst h; simp
  · have h2 : ¬ p = q := fun e => h e.symm
    simp [h, h2]

theorem testBit_byte_compl (p q : Nat) (hp : p ≤ 7) :
    (0xFF - 1 <<< p).testBit q = (decide (q < 8) && !decide (q = p)) := by
  have h2 : 2 ^ p < 2 ^ 8 := Nat.pow_lt_pow_right (by norm_num) (by omega)
  have := Nat.testBit_two_pow_sub_succ h2 q
  rw [Nat.one_shiftLeft, show 0xFF - 2 ^ p = 2 ^ 8 - (2 ^ p + 1) by omega, this,
    ← Nat.one_shiftLeft, testBit_one_shl]

theorem reg_mod (base off : Nat) : (base % 2 ^ 32 + off) % 2 ^ 32 = (base + off) % 2 ^ 32 :=
  Nat.mod_add_mod base (2 ^ 32) off

theorem load_store_same (mem : Mem) (a v : Nat) : load (store mem a v) a = v % 2 ^ 32 := by
  simp [load, store]

theorem load_store_other (mem : Mem) (a b v : Nat) (h : b ≠ a) :
    load (store mem a v) b = load mem b := by
  simp [load, store, h]

theorem store_congr (mem : Mem) (a v w : Nat) (h : v % 2 ^ 32 = w % 2 ^ 32) :
    store mem a v = store mem a w := by
  funext x
  simp only [store]
  rw [h]

/-- Bits of the byte that `gpio_set_pin` hands to `gpio_write`, for any shift `1 << pin`
that C defines. -/
theorem set_val_testBit (d p q : Nat) (hp : p < 32) :
    (((d &&& 0xFF) % 2 ^ 8 ||| shl1 p) % 2 ^ 8).testBit q
      = (decide (q < 8) && (d.testBit q || decide (q = p))) := by
  simp only [Nat.testBit_mod_two_pow, Nat.testBit_or, and_0xFF, testBit_shl1 p q hp]
  by_cases h8 : q < 8 <;> simp [h8]

/-- Bits of the byte that `gpio_clear_pin` hands to `gpio_write`. -/
theorem clear_val_testBit (d p q : Nat) (hp : p < 32) :
    (((d &&& 0xFF) % 2 ^ 8 &&& not32 (shl1 p)) % 2 ^ 8).testBit q
      = (decide (q < 8) && (d.testBit q && !decide (q = p))) := by
  have hs : shl1 p % 2 ^ 32 = shl1 p := by unfold shl1; exact Nat.mod_mod _ _
  simp only [Nat.testBit_mod_two_pow, Nat.testBit_and, and_0xFF, testBit_not32, hs,
    testBit_shl1 p q hp]
  by_cases h8 : q < 8
  · have : q < 32 := by omega
    simp [h8, this]
  · simp [h8]

/-- Bits of the byte that `gpio_toggle_pin` hands to `gpio_write`. -/
theorem toggle_val_testBit (d p q : Nat) (hp : p < 32) :
    (((d &&& 0xFF) % 2 ^ 8 ^^^ shl1 p) % 2 ^ 8).testBit q
      = (decide (q < 8) && (xor (d.testBit q) (decide (q = p)))) := by
  simp only [Nat.testBit_mod_two_pow, Nat.testBit_xor, and_0xFF, testBit_shl1 p q hp]
  by_cases h8 : q < 8 <;> simp [h8]

theorem byte_lt_word (x : Nat) : x % 2 ^ 8 % 2 ^ 32 = x % 2 ^ 8 :=
  Nat.mod_eq_of_lt (lt_trans (Nat.mod_lt _ (by norm_num)) (by norm_num))

theorem gpio_read_fst (base : Nat) (mem : Mem) :
    (gpio_read base mem).1 = (load mem (GPIO_DATAI_REG base) &&& 0xFF) % 2 ^ 8 := by
  simp only [gpio_read, GPIO_DATAI_REG, reg_mod]

theorem gpio_read_snd (base : Nat) (mem : Mem) : (gpio_read base mem).2 = mem := rfl

theorem gpio_write_eq (base value : Nat) (mem : Mem) :
    gpio_write base value mem = store mem (GPIO_DATAO_REG base) (value % 2 ^ 8) := by
  simp only [gpio_write, GPIO_DATAO_REG, reg_mod]

theorem gpio_set_pin_eq (base pin : Nat) (mem : Mem) :
    gpio_set_pin base pin mem = store mem (GPIO_DATAO_REG base)
      (((load mem (GPIO_DATAI_REG base) &&& 0xFF) % 2 ^ 8 ||| shl1 (pin % 2 ^ 8)) % 2 ^ 8) := by
  simp only [gpio_set_pin, gpio_read, gpio_write, GPIO_DATAI_REG, GPIO_DATAO_REG, reg_mod,
    Nat.mod_mod]

theorem gpio_clear_pin_eq (base pin : Nat) (mem : Mem) :
    gpio_clear_pin base pin mem = store mem (GPIO_DATAO_REG base)
      (((load mem (GPIO_DATAI_REG base) &&& 0xFF) % 2 ^ 8 &&& not32 (shl1 (pin % 2 ^ 8)))
        % 2 ^ 8) := by
  simp only [gpio_clear_pin, gpio_read, gpio_write, GPIO_DATAI_REG, GPIO_DATAO_REG, reg_mod,
    Nat.mod_mod]

theorem gpio_toggle_pin_eq (base pin : Nat) (mem : Mem) :
    gpio_toggle_pin base pin mem = store mem (GPIO_DATAO_REG base)
      (((load mem (GPIO_DATAI_REG base) &&& 0xFF) % 2 ^ 8 ^^^ shl1 (pin % 2 ^ 8)) % 2 ^ 8) := by
  simp only [gpio_toggle_pin, gpio_read, gpio_write, GPIO_DATAI_REG, GPIO_DATAO_REG, reg_mod,
    Nat.mod_mod]

theorem set_val_eq (d p : Nat) (hp : p ≤ 7) :
    ((d &&& 0xFF) % 2 ^ 8 ||| shl1 (p % 2 ^ 8)) % 2 ^ 8 = (d &&& 0xFF) ||| (1 <<< p) := by
  have hp8 : p % 2 ^ 8 = p := Nat.mod_eq_of_lt (by omega)
  rw [hp8]
  apply Nat.eq_of_testBit_eq
  intro q
  rw [set_val_testBit d p q (by omega)]
  simp only [Nat.testBit_or, and_0xFF, Nat.testBit_mod_two_pow, testBit_one_shl]
  by_cases h8 : q < 8
  · simp [h8]
  · have : q ≠ p := by omega
    simp [h8, this]

theorem clear_val_eq (d p : Nat) (hp : p ≤ 7) :
    ((d &&& 0xFF) % 2 ^ 8 &&& not32 (shl1 (p % 2 ^ 8))) % 2 ^ 8
      = (d &&& 0xFF) &&& (0xFF - (1 <<< p)) := by
  have hp8 : p % 2 ^ 8 = p := Nat.mod_eq_of_lt (by omega)
  rw [hp8]
  apply Nat.eq_of_testBit_eq
  intro q
  rw [clear_val_testBit d p q (by omega)]
  simp only [Nat.testBit_and, and_0xFF, Nat.testBit_mod_two_pow, testBit_byte_compl p q hp]
  by_cases h8 : q < 8 <;> simp [h8]

theorem clear_val_no_loss (d p : Nat) (hp : p ≤ 7) :
    ((d &&& 0xFF) % 2 ^ 8 &&& not32 (shl1 (p % 2 ^ 8))) % 2 ^ 8
      = (d &&& 0xFF) &&& not32 (shl1 p) := by
  have hp8 : p % 2 ^ 8 = p := Nat.mod_eq_of_lt (by omega)
  have hs : shl1 p % 2 ^ 32 = shl1 p := by unfold shl1; exact Nat.mod_mod _ _
  rw [hp8]
  apply Nat.eq_of_testBit_eq
  intro q
  rw [clear_val_testBit d p q (by omega)]
  simp only [Nat.testBit_and, and_0xFF, Nat.testBit_mod_two_pow, testBit_not32, hs,
    testBit_shl1 p q (show p < 32 by omega)]
  by_cases h8 : q < 8
  · have : q < 32 := by omega
    simp [h8, this]
  · simp [h8]

theorem toggle_val_eq (d p : Nat) (hp : p ≤ 7) :
    ((d &&& 0xFF) % 2 ^ 8 ^^^ shl1 (p % 2 ^ 8)) % 2 ^ 8 = (d &&& 0xFF) ^^^ (1 <<< p) := by
  have hp8 : p % 2 ^ 8 = p := Nat.mod_eq_of_lt (by omega)
  rw [hp8]
  apply Nat.eq_of_testBit_eq
  intro q
  rw [toggle_val_testBit d p q (by omega)]
  simp only [Nat.testBit_xor, and_0xFF, Nat.testBit_mod_two_pow, testBit_one_shl]
  by_cases h8 : q < 8
  · simp [h8]
  · have : q ≠ p := by omega
    simp [h8, this]

/-! ## Pin helpers -/

/-- C1: for every bus state and every pin `p ≤ 7`, `gpio_set_pin base p` is one store to
DATAO of `(DATAI & 0xFF) | (1 << p)`, with DATAI as loaded at the call; DATAO then reads
back as that value, its bit `p` is 1 and every other bit `q ≤ 7` is bit `q` of DATAI. -/
theorem gpio_set_pin_writes (base p : Nat) (mem : Mem) (hp : p ≤ 7) :
    gpio_set_pin base p mem
        = store mem (GPIO_DATAO_REG base)
            ((load mem (GPIO_DATAI_REG base) &&& 0xFF) ||| (1 <<< p)) ∧
    load (gpio_set_pin base p mem) (GPIO_DATAO_REG base)
        = (load mem (GPIO_DATAI_REG base) &&& 0xFF) ||| (1 <<< p) ∧
    (load (gpio_set_pin base p mem) (GPIO_DATAO_REG base)).testBit p = true ∧
    ∀ q, q ≤ 7 → q ≠ p →
      (load (gpio_set_pin base p mem) (GPIO_DATAO_REG base)).testBit q
        = (load mem (GPIO_DATAI_REG base)).testBit q := by
  have hv := set_val_eq (load mem (GPIO_DATAI_REG base)) p hp
  have hl : load (gpio_set_pin base p mem) (GPIO_DATAO_REG base)
      = ((load mem (GPIO_DATAI_REG base) &&& 0xFF) % 2 ^ 8 ||| shl1 (p % 2 ^ 8)) % 2 ^ 8 := by
    rw [gpio_set_pin_eq, load_store_same, byte_lt_word]
  have hp8 : p % 2 ^ 8 = p := Nat.mod_eq_of_lt (by omega)
  refine ⟨?_, ?_, ?_, ?_⟩
  · rw [gpio_set_pin_eq, hv]
  · rw [hl, hv]
  · rw [hl, hp8, set_val_testBit _ p p (by omega)]
    simp; omega
  · intro q hq hqp
    rw [hl, hp8, set_val_testBit _ p q (by omega)]
    simp [hqp]; omega

theorem gpio_set_pin_writes_witness :
    (3 : Nat) ≤ 7 ∧
      load (gpio_set_pin GPIO1_BASE 3 (fun _ => 0x12A5)) (GPIO_DATAO_REG GPIO1_BASE) = 0xAD :=
  ⟨by decide, (gpio_set_pin_writes GPIO1_BASE 3 (fun _ => 0x12A5) (by decide)).2.1.trans
    (by decide)⟩

/-- C2: for every bus state and every pin `p ≤ 7`, `gpio_clear_pin base p` is one store to
DATAO of `DATAI & 0xFF` with bit `p` cleared; the `int` value `current & ~(1 << p)` already
fits in a byte, so the conversion to `uint8_t` loses nothing; DATAO then has bit `p` equal
to 0 and every other bit `q ≤ 7` equal to bit `q` of DATAI. -/
theorem gpio_clear_pin_writes (base p : Nat) (mem : Mem) (hp : p ≤ 7) :
    gpio_clear_pin base p mem
        = store mem (GPIO_DATAO_REG base)
            ((load mem (GPIO_DATAI_REG base) &&& 0xFF) &&& (0xFF - (1 <<< p))) ∧
    load (gpio_clear_pin base p mem) (GPIO_DATAO_REG base)
        = (load mem (GPIO_DATAI_REG base) &&& 0xFF) &&& (0xFF - (1 <<< p)) ∧
    load (gpio_clear_pin base p mem) (GPIO_DATAO_REG base)
        = (load mem (GPIO_DATAI_REG base) &&& 0xFF) &&& not32 (shl1 p) ∧
    (load (gpio_clear_pin base p mem) (GPIO_DATAO_REG base)).testBit p = false ∧
    ∀ q, q ≤ 7 → q ≠ p →
      (load (gpio_clear_pin base p mem) (GPIO_DATAO_REG base)).testBit q
        = (load mem (GPIO_DATAI_REG base)).testBit q := by
  have hv := clear_val_eq (load mem (GPIO_DATAI_REG base)) p hp
  have hl : load (gpio_clear_pin base p mem) (GPIO_DATAO_REG base)
      = ((load mem (GPIO_DATAI_REG base) &&& 0xFF) % 2 ^ 8 &&& not32 (shl1 (p % 2 ^ 8)))
          % 2 ^ 8 := by
    rw [gpio_clear_pin_eq, load_store_same, byte_lt_word]
  have hp8 : p % 2 ^ 8 = p := Nat.mod_eq_of_lt (by omega)
  refine ⟨?_, ?_, ?_, ?_, ?_⟩
  · rw [gpio_clear_pin_eq, hv]
  · rw [hl, hv]
  · rw [hl, clear_val_no_loss _ p hp]
  · rw [hl, hp8, clear_val_testBit _ p p (by omega)]
    simp
  · intro q hq hqp
    rw [hl, hp8, clear_val_testBit _ p q (by omega)]
    simp [hqp]; omega

theorem gpio_clear_pin_writes_witness :
    (0 : Nat) ≤ 7 ∧
      load (gpio_clear_pin GPIO0_BASE 0 (fun _ => 0x12A5)) (GPIO_DATAO_REG GPIO0_BASE) = 0xA4 :=
  ⟨by decide, (gpio_clear_pin_writes GPIO0_BASE 0 (fun _ => 0x12A5) (by decide)).2.1.trans
    (by decide)⟩

/-- C3: for every bus state and every pin `p ≤ 7`, `gpio_toggle_pin base p` is one store to
DATAO of `(DATAI & 0xFF) ^ (1 << p)`; DATAO then has bit `p` equal to the complement of
bit `p` of DATAI and every other bit `q ≤ 7` equal to bit `q` of DATAI. -/
theorem gpio_toggle_pin_writes (base p : Nat) (mem : Mem) (hp : p ≤ 7) :
    gpio_toggle_pin base p mem
        = store mem (GPIO_DATAO_REG base)
            ((load mem (GPIO_DATAI_REG base) &&& 0xFF) ^^^ (1 <<< p)) ∧
    load (gpio_toggle_pin base p mem) (GPIO_DATAO_REG base)
        = (load mem (GPIO_DATAI_REG base) &&& 0xFF) ^^^ (1 <<< p) ∧
    (load (gpio_toggle_pin base p mem) (GPIO_DATAO_REG base)).testBit p
        = !(load mem (GPIO_DATAI_REG base)).testBit p ∧
    ∀ q, q ≤ 7 → q ≠ p →
      (load (gpio_toggle_pin base p mem) (GPIO_DATAO_REG base)).testBit q
        = (load mem (GPIO_DATAI_REG base)).testBit q := by
  have hv := toggle_val_eq (load mem (GPIO_DATAI_REG base)) p hp
  have hl : load (gpio_toggle_pin base p mem) (GPIO_DATAO_REG base)
      = ((load mem (GPIO_DATAI_REG base) &&& 0xFF) % 2 ^ 8 ^^^ shl1 (p % 2 ^ 8)) % 2 ^ 8 := by
    rw [gpio_toggle_pin_eq, load_store_same, byte_lt_word]
  have hp8 : p % 2 ^ 8 = p := Nat.mod_eq_of_lt (by omega)
  refine ⟨?_, ?_, ?_, ?_⟩
  · rw [gpio_toggle_pin_eq, hv]
  · rw [hl, hv]
  · rw [hl, hp8, toggle_val_testBit _ p p (by omega)]
    simp; omega
  · intro q hq hqp
    rw [hl, hp8, toggle_val_testBit _ p q (by omega)]
    simp [hqp]; omega

theorem gpio_toggle_pin_writes_witness :
    (7 : Nat) ≤ 7 ∧
      load (gpio_toggle_pin GPIO1_BASE 7 (fun _ => 0x12A5)) (GPIO_DATAO_REG GPIO1_BASE) = 0x25 :=
  ⟨by decide, (gpio_toggle_pin_writes GPIO1_BASE 7 (fun _ => 0x12A5) (by decide)).2.1.trans
    (by decide)⟩

/-! ## Virtual I/O latch -/

theorem testBit_hi_mask (q : Nat) :
    (0xFFFF0000 : Nat).testBit q = (decide (q < 32) && !decide (q < 16)) := by
  have h2 : 2 ^ 16 - 1 < 2 ^ 32 := by norm_num
  have := Nat.testBit_two_pow_sub_succ h2 q
  rw [show (0xFFFF0000 : Nat) = 2 ^ 32 - (2 ^ 16 - 1 + 1) by norm_num, this,
    Nat.testBit_two_pow_sub_one]

theorem and_0xFFFF (d : Nat) : d &&& 0xFFFF = d % 2 ^ 16 :=
  Nat.and_pow_two_sub_one_eq_mod d 16

/-- Bits of the word that `vgpio_write_output` stores. -/
theorem vgpio_val_testBit (r v q : Nat) :
    (((r % 2 ^ 32 &&& 0xFFFF0000) ||| (v % 2 ^ 16 &&& 0xFFFF)) % 2 ^ 32).testBit q
      = ((decide (q < 32) && !decide (q < 16) && r.testBit q)
          || (decide (q < 16) && v.testBit q)) := by
  simp only [Nat.testBit_mod_two_pow, Nat.testBit_or, Nat.testBit_and, and_0xFFFF,
    testBit_hi_mask]
  by_cases h16 : q < 16
  · have : q < 32 := by omega
    simp [h16, this]
  · by_cases h32 : q < 32 <;> simp [h16, h32]

theorem vgpio_write_output_eq (value : Nat) (mem : Mem) :
    vgpio_write_output value mem = store mem VGPIO_REG_ADDR
      (((mem VGPIO_REG_ADDR % 2 ^ 32 &&& 0xFFFF0000) ||| (value % 2 ^ 16 &&& 0xFFFF))
        % 2 ^ 32) := rfl

theorem vgpio_read_input_fst (mem : Mem) :
    (vgpio_read_input mem).1
      = (((mem VGPIO_REG_ADDR % 2 ^ 32) >>> 16) &&& 0xFFFF) % 2 ^ 16 := rfl

theorem vgpio_val_eq (r v : Nat) (hr : r < 2 ^ 32) (hv : v < 2 ^ 16) :
    ((r % 2 ^ 32 &&& 0xFFFF0000) ||| (v % 2 ^ 16 &&& 0xFFFF)) % 2 ^ 32
      = (r &&& 0xFFFF0000) ||| v := by
  apply Nat.eq_of_testBit_eq
  intro q
  rw [vgpio_val_testBit]
  simp only [Nat.testBit_or, Nat.testBit_and, testBit_hi_mask]
  by_cases h16 : q < 16
  · have : q < 32 := by omega
    simp [h16, this]
  · have hvq : v.testBit q = false :=
      Nat.testBit_lt_two_pow (lt_of_lt_of_le hv (Nat.pow_le_pow_right (by norm_num)
        (by omega)))
    by_cases h32 : q < 32
    · simp [h16, h32, hvq]
    · have hrq : r.testBit q = false :=
        Nat.testBit_lt_two_pow (lt_of_lt_of_le hr (Nat.pow_le_pow_right (by norm_num)
          (by omega)))
      simp [h16, h32, hvq, hrq]

theorem vgpio_val_low (r v : Nat) (hv : v < 2 ^ 16) :
    (((r % 2 ^ 32 &&& 0xFFFF0000) ||| (v % 2 ^ 16 &&& 0xFFFF)) % 2 ^ 32) % 2 ^ 16 = v := by
  apply Nat.eq_of_testBit_eq
  intro q
  rw [Nat.testBit_mod_two_pow, vgpio_val_testBit]
  by_cases h16 : q < 16
  · simp [h16]
  · have hvq : v.testBit q = false :=
      Nat.testBit_lt_two_pow (lt_of_lt_of_le hv (Nat.pow_le_pow_right (by norm_num)
        (by omega)))
    simp [h16, hvq]

theorem vgpio_val_high (r v : Nat) :
    (((r % 2 ^ 32 &&& 0xFFFF0000) ||| (v % 2 ^ 16 &&& 0xFFFF)) % 2 ^ 32) / 2 ^ 16
      = r % 2 ^ 32 / 2 ^ 16 := by
  rw [← Nat.shiftRight_eq_div_pow, ← Nat.shiftRight_eq_div_pow]
  apply Nat.eq_of_testBit_eq
  intro q
  rw [Nat.testBit_shiftRight, Nat.testBit_shiftRight, vgpio_val_testBit,
    Nat.testBit_mod_two_pow]
  have h16 : ¬ (16 + q < 16) := by omega
  simp [h16]

theorem vgpio_read_input_div (mem : Mem) :
    (vgpio_read_input mem).1 = mem VGPIO_REG_ADDR % 2 ^ 32 / 2 ^ 16 := by
  rw [vgpio_read_input_fst, and_0xFFFF, Nat.mod_mod, Nat.shiftRight_eq_div_pow]
  apply Nat.mod_eq_of_lt
  have : mem VGPIO_REG_ADDR % 2 ^ 32 < 2 ^ 32 := Nat.mod_lt _ (by norm_num)
  omega

/-- C4: when the latch register holds the 32-bit value `r` and `v` is a 16-bit value,
`vgpio_write_output v` is one store to the latch of `(r & 0xFFFF0000) | v`; the register
then has low 16 bits equal to `v` and high 16 bits equal to those of `r`. -/
theorem vgpio_write_output_spec (mem : Mem) (r v : Nat) (hm : mem VGPIO_REG_ADDR = r)
    (hr : r < 2 ^ 32) (hv : v < 2 ^ 16) :
    vgpio_write_output v mem = store mem VGPIO_REG_ADDR ((r &&& 0xFFFF0000) ||| v) ∧
    load (vgpio_write_output v mem) VGPIO_REG_ADDR = (r &&& 0xFFFF0000) ||| v ∧
    load (vgpio_write_output v mem) VGPIO_REG_ADDR % 2 ^ 16 = v ∧
    load (vgpio_write_output v mem) VGPIO_REG_ADDR / 2 ^ 16 = r / 2 ^ 16 := by
  subst hm
  have hl : load (vgpio_write_output v mem) VGPIO_REG_ADDR
      = ((mem VGPIO_REG_ADDR % 2 ^ 32 &&& 0xFFFF0000) ||| (v % 2 ^ 16 &&& 0xFFFF))
          % 2 ^ 32 := by
    rw [vgpio_write_output_eq, load_store_same, Nat.mod_mod]
  refine ⟨?_, ?_, ?_, ?_⟩
  · rw [vgpio_write_output_eq, vgpio_val_eq _ v hr hv]
  · rw [hl, vgpio_val_eq _ v hr hv]
  · rw [hl, vgpio_val_low _ v hv]
  · rw [hl, vgpio_val_high, Nat.mod_eq_of_lt hr]

theorem vgpio_write_output_spec_witness :
    (fun _ => 0xBEEF1234 : Mem) VGPIO_REG_ADDR = 0xBEEF1234 ∧ 0xBEEF1234 < 2 ^ 32 ∧
      0x0007 < 2 ^ 16 ∧
      load (vgpio_write_output 0x0007 (fun _ => 0xBEEF1234)) VGPIO_REG_ADDR = 0xBEEF0007 :=
  ⟨rfl, by decide, by decide,
    (vgpio_write_output_spec (fun _ => 0xBEEF1234) 0xBEEF1234 0x0007 rfl (by decide)
      (by decide)).2.1.trans (by decide)⟩

/-- C5: when the latch register holds the 32-bit value `r`, for every argument `v` (so for
every 16-bit one) `vgpio_read_input` returns the same value after `vgpio_write_output v` as
before it; from
`r = 0`, writing `0x0001` and reading returns `0x0000`; from any `r` whose high half is
`0x0002`, reading after any output write returns `0x0002`. -/
theorem vgpio_read_input_after_write (mem : Mem) (r v : Nat) (hm : mem VGPIO_REG_ADDR = r)
    (hr : r < 2 ^ 32) :
    (vgpio_read_input (vgpio_write_output v mem)).1 = (vgpio_read_input mem).1 ∧
    (r = 0 → v = 0x0001 → (vgpio_read_input (vgpio_write_output v mem)).1 = 0x0000) ∧
    (r / 2 ^ 16 = 0x0002 → (vgpio_read_input (vgpio_write_output v mem)).1 = 0x0002) := by
  subst hm
  have key : (vgpio_read_input (vgpio_write_output v mem)).1
      = mem VGPIO_REG_ADDR % 2 ^ 32 / 2 ^ 16 := by
    rw [vgpio_read_input_div, vgpio_write_output_eq]
    simp only [store, if_true]
    rw [Nat.mod_mod, Nat.mod_mod, vgpio_val_high]
  refine ⟨?_, ?_, ?_⟩
  · rw [key, vgpio_read_input_div]
  · intro h0 _
    rw [key, h0]
    rfl
  · intro h2
    rw [key, Nat.mod_eq_of_lt hr, h2]

theorem vgpio_read_input_after_write_witness :
    (fun _ => 0x00020000 : Mem) VGPIO_REG_ADDR = 0x00020000 ∧ 0x00020000 < 2 ^ 32 ∧
      (vgpio_read_input (vgpio_write_output 0xFFFF (fun _ => 0x00020000))).1
        = (vgpio_read_input (fun _ => 0x00020000)).1 :=
  ⟨rfl, by decide,
    (vgpio_read_input_after_write (fun _ => 0x00020000) 0x00020000 0xFFFF rfl
      (by decide)).1⟩

/-- C6: when the latch register holds the 32-bit value `r`, `vgpio_read_input` returns
`r >> 16 = r / 2^16`, leaves the bus as it found it, and returns the same value from any
other 32-bit register content with the same high half. -/
theorem vgpio_read_input_spec (mem : Mem) (r : Nat) (hm : mem VGPIO_REG_ADDR = r)
    (hr : r < 2 ^ 32) :
    (vgpio_read_input mem).1 = r / 2 ^ 16 ∧
    (vgpio_read_input mem).1 = r >>> 16 ∧
    (vgpio_read_input mem).2 = mem ∧
    ∀ mem2 : Mem, mem2 VGPIO_REG_ADDR < 2 ^ 32 →
      mem2 VGPIO_REG_ADDR / 2 ^ 16 = r / 2 ^ 16 →
      (vgpio_read_input mem2).1 = (vgpio_read_input mem).1 := by
  subst hm
  have h1 : (vgpio_read_input mem).1 = mem VGPIO_REG_ADDR / 2 ^ 16 := by
    rw [vgpio_read_input_div, Nat.mod_eq_of_lt hr]
  refine ⟨h1, ?_, rfl, ?_⟩
  · rw [h1, Nat.shiftRight_eq_div_pow]
  · intro mem2 h2 hhi
    rw [h1, vgpio_read_input_div, Nat.mod_eq_of_lt h2, hhi]

theorem vgpio_read_input_spec_witness :
    (fun _ => 0xBEEF1234 : Mem) VGPIO_REG_ADDR = 0xBEEF1234 ∧ 0xBEEF1234 < 2 ^ 32 ∧
      (vgpio_read_input (fun _ => 0xBEEF1234)).1 = 0xBEEF :=
  ⟨rfl, by decide,
    (vgpio_read_input_spec (fun _ => 0xBEEF1234) 0xBEEF1234 rfl (by decide)).1.trans
      (by decide)⟩

/-! ## Bank registers -/

theorem datai_ne_datao (base : Nat) : GPIO_DATAI_REG base ≠ GPIO_DATAO_REG base := by
  simp only [GPIO_DATAI_REG, GPIO_DATAO_REG, GPIO_DATAI_OFFSET, GPIO_DATAO_OFFSET]
  omega

theorem gpio_set_direction_eq (base pin_mask : Nat) (mem : Mem) :
    gpio_set_direction base pin_mask mem
      = store mem (GPIO_DIR_REG base) (pin_mask % 2 ^ 8) := by
  simp only [gpio_set_direction, GPIO_DIR_REG, reg_mod]

theorem gpio_clear_irq_eq (base irq_mask : Nat) (mem : Mem) :
    gpio_clear_irq base irq_mask mem
      = store mem (GPIO_IC_REG base) (irq_mask % 2 ^ 32) := by
  simp only [gpio_clear_irq, GPIO_IC_REG, reg_mod]

theorem store_store_same (mem : Mem) (a v : Nat) :
    store (store mem a v) a v = store mem a v := by
  funext x
  simp only [store]
  split <;> rfl

/-- C7: for every bus state, `gpio_read base` returns the low 8 bits of the DATAI register
(DATAI mod 256) and leaves the bus as it found it; the result is the same in any other
state whose DATAI has the same low byte, whatever the other registers and bits 8..31 of
DATAI hold. -/
theorem gpio_read_spec (base : Nat) (mem : Mem) :
    (gpio_read base mem).1 = load mem (GPIO_DATAI_REG base) % 256 ∧
    (gpio_read base mem).1 = mem (GPIO_DATAI_REG base) % 256 ∧
    (gpio_read base mem).2 = mem ∧
    ∀ mem2 : Mem, mem2 (GPIO_DATAI_REG base) % 256 = mem (GPIO_DATAI_REG base) % 256 →
      (gpio_read base mem2).1 = (gpio_read base mem).1 := by
  have h1 : ∀ m : Mem, (gpio_read base m).1 = m (GPIO_DATAI_REG base) % 256 := by
    intro m
    rw [gpio_read_fst, and_0xFF, Nat.mod_mod, load]
    exact Nat.mod_mod_of_dvd _ (by norm_num)
  refine ⟨?_, h1 mem, rfl, ?_⟩
  · rw [gpio_read_fst, and_0xFF, Nat.mod_mod]
    norm_num
  · intro mem2 h
    rw [h1 mem2, h1 mem, h]

/-- C8: for every bus state whose DIR register is 0x00 and every byte `v`, `gpio_read base`
returns the same value after `gpio_write base v` as before it: the write goes to DATAO and
leaves the DATAI word, the only one `gpio_read` looks at, as it was. -/
theorem gpio_read_after_write_input (base v : Nat) (mem : Mem)
    (hdir : load mem (GPIO_DIR_REG base) = 0x00) (hv : v < 256) :
    (gpio_read base (gpio_write base v mem)).1 = (gpio_read base mem).1 ∧
    load (gpio_write base v mem) (GPIO_DATAI_REG base) = load mem (GPIO_DATAI_REG base) ∧
    load (gpio_write base v mem) (GPIO_DATAO_REG base) = v ∧
    load (gpio_write base v mem) (GPIO_DIR_REG base) = 0x00 := by
  have hdi : load (gpio_write base v mem) (GPIO_DATAI_REG base)
      = load mem (GPIO_DATAI_REG base) := by
    rw [gpio_write_eq, load_store_other _ _ _ _ (datai_ne_datao base)]
  have hne : GPIO_DIR_REG base ≠ GPIO_DATAO_REG base := by
    simp only [GPIO_DIR_REG, GPIO_DATAO_REG, GPIO_DIR_OFFSET, GPIO_DATAO_OFFSET]
    omega
  refine ⟨?_, hdi, ?_, ?_⟩
  · rw [gpio_read_fst, gpio_read_fst, hdi]
  · rw [gpio_write_eq, load_store_same, byte_lt_word]
    exact Nat.mod_eq_of_lt hv
  · rw [gpio_write_eq, load_store_other _ _ _ _ hne, hdir]

theorem gpio_read_after_write_input_witness :
    load (fun a => if a = 0x30010000 then 0x5A else 0) (GPIO_DIR_REG GPIO1_BASE) = 0x00 ∧
      0xCC < 256 ∧
      (gpio_read GPIO1_BASE
          (gpio_write GPIO1_BASE 0xCC (fun a => if a = 0x30010000 then 0x5A else 0))).1
        = 0x5A :=
  ⟨by decide, by decide,
    (gpio_read_after_write_input GPIO1_BASE 0xCC
      (fun a => if a = 0x30010000 then 0x5A else 0) (by decide) (by decide)).1.trans
      (by decide)⟩

/-- C9: for either bank base, every bus state and every mask `m ≤ 255`, after
`gpio_set_direction base m` the DIR register of that bank reads back as exactly `m`, with
bits 8..31 equal to 0, whatever DIR held before. -/
theorem gpio_set_direction_readback (base m : Nat) (mem : Mem)
    (hb : base = GPIO0_BASE ∨ base = GPIO1_BASE) (hm : m ≤ 255) :
    load (gpio_set_direction base m mem) (GPIO_DIR_REG base) = m ∧
    (∀ q, 8 ≤ q → (load (gpio_set_direction base m mem) (GPIO_DIR_REG base)).testBit q
      = false) ∧
    GPIO_DIR_REG base = base + 0x0008 := by
  have hl : load (gpio_set_direction base m mem) (GPIO_DIR_REG base) = m := by
    rw [gpio_set_direction_eq, load_store_same, byte_lt_word]
    exact Nat.mod_eq_of_lt (by omega)
  refine ⟨hl, ?_, ?_⟩
  · intro q hq
    rw [hl]
    exact Nat.testBit_lt_two_pow (lt_of_lt_of_le (show m < 2 ^ 8 by omega)
      (Nat.pow_le_pow_right (by norm_num) hq))
  · rcases hb with h | h <;> subst h <;> decide

theorem gpio_set_direction_readback_witness :
    (GPIO1_BASE = GPIO0_BASE ∨ GPIO1_BASE = GPIO1_BASE) ∧ 0xF0 ≤ 255 ∧
      load (gpio_set_direction GPIO1_BASE 0xF0 (fun _ => 0xFFFFFFFF)) (GPIO_DIR_REG GPIO1_BASE)
        = 0xF0 :=
  ⟨Or.inr rfl, by decide,
    (gpio_set_direction_readback GPIO1_BASE 0xF0 (fun _ => 0xFFFFFFFF) (Or.inr rfl)
      (by decide)).1⟩

/-- C10: for every bus state and every mask, a second `gpio_clear_irq base mask` right
after the first leaves the whole bus, and so the MIS and RIS registers, exactly as the
first call left them. -/
theorem gpio_clear_irq_twice (base mask : Nat) (mem : Mem) :
    gpio_clear_irq base mask (gpio_clear_irq base mask mem) = gpio_clear_irq base mask mem ∧
    load (gpio_clear_irq base mask (gpio_clear_irq base mask mem)) (GPIO_MIS_REG base)
      = load (gpio_clear_irq base mask mem) (GPIO_MIS_REG base) ∧
    load (gpio_clear_irq base mask (gpio_clear_irq base mask mem)) (GPIO_RIS_REG base)
      = load (gpio_clear_irq base mask mem) (GPIO_RIS_REG base) := by
  have h : gpio_clear_irq base mask (gpio_clear_irq base mask mem)
      = gpio_clear_irq base mask mem := by
    rw [gpio_clear_irq_eq, gpio_clear_irq_eq, store_store_same]
  exact ⟨h, by rw [h], by rw [h]⟩

/-! ## Peripheral reaction (modelled from the spec) -/

theorem gpio_enable_irq_eq (base irq_mask : Nat) (mem : Mem) :
    gpio_enable_irq base irq_mask mem
      = store mem (GPIO_IM_REG base) (irq_mask % 2 ^ 32) := by
  simp only [gpio_enable_irq, GPIO_IM_REG, reg_mod]

theorem gpio_get_irq_status_fst (base : Nat) (mem : Mem) :
    (gpio_get_irq_status base mem).1 = load mem (GPIO_MIS_REG base) := by
  simp only [gpio_get_irq_status, GPIO_MIS_REG, reg_mod]

theorem ris_ne_im (base : Nat) : GPIO_RIS_REG base ≠ GPIO_IM_REG base := by
  simp only [GPIO_RIS_REG, GPIO_IM_REG, GPIO_RIS_OFFSET, GPIO_IM_OFFSET]
  omega

theorem mis_ne_im (base : Nat) : GPIO_MIS_REG base ≠ GPIO_IM_REG base := by
  simp only [GPIO_MIS_REG, GPIO_IM_REG, GPIO_MIS_OFFSET, GPIO_IM_OFFSET]
  omega

/-- On the bus alone `gpio_enable_irq` does not touch the MIS word: what
`gpio_get_irq_status` returns afterwards is whatever MIS held before. -/
theorem gpio_get_irq_status_storage (base m : Nat) (mem : Mem) :
    (gpio_get_irq_status base (gpio_enable_irq base m mem)).1
      = load mem (GPIO_MIS_REG base) := by
  rw [gpio_get_irq_status_fst, gpio_enable_irq_eq, load_store_other _ _ _ _ (mis_ne_im base)]

theorem masked_status_value (base m : Nat) (mem : Mem) :
    (gpio_get_irq_status base (hw_masked_status base (gpio_enable_irq base m mem))).1
      = load mem (GPIO_RIS_REG base) &&& (m % 2 ^ 32) := by
  rw [gpio_get_irq_status_fst, hw_masked_status, load_store_same, gpio_enable_irq_eq,
    load_store_other _ _ _ _ (ris_ne_im base), load_store_same, Nat.mod_mod]
  apply Nat.mod_eq_of_lt
  exact lt_of_le_of_lt Nat.and_le_right (Nat.mod_lt _ (by norm_num))

/-- C11: with the MIS word presenting `RIS & IM` (the peripheral, modelled from the spec),
for every bus state and every mask `m` the value `gpio_get_irq_status base` returns right
after `gpio_enable_irq base m` is `RIS & m`, a bitwise subset of `m`: `status & ~m = 0`
and every bit set in the status is set in `m`. -/
theorem gpio_irq_status_subset (base m : Nat) (mem : Mem) :
    (gpio_get_irq_status base (hw_masked_status base (gpio_enable_irq base m mem))).1
        = load mem (GPIO_RIS_REG base) &&& (m % 2 ^ 32) ∧
    (gpio_get_irq_status base (hw_masked_status base (gpio_enable_irq base m mem))).1
        &&& not32 m = 0 ∧
    ∀ q, (gpio_get_irq_status base
            (hw_masked_status base (gpio_enable_irq base m mem))).1.testBit q = true →
      m.testBit q = true := by
  refine ⟨masked_status_value base m mem, ?_, ?_⟩
  · rw [masked_status_value]
    apply Nat.eq_of_testBit_eq
    intro q
    simp only [Nat.testBit_and, testBit_not32, Nat.zero_testBit]
    cases (m % 2 ^ 32).testBit q <;> simp
  · intro q hq
    rw [masked_status_value, Nat.testBit_and, Nat.testBit_mod_two_pow] at hq
    simp only [Bool.and_eq_true, decide_eq_true_eq] at hq
    exact hq.2.2

theorem dir_ne_datao (base : Nat) : GPIO_DIR_REG base ≠ GPIO_DATAO_REG base := by
  simp only [GPIO_DIR_REG, GPIO_DATAO_REG, GPIO_DIR_OFFSET, GPIO_DATAO_OFFSET]
  omega

theorem hw_loopback_datai (base : Nat) (mem : Mem) :
    load (hw_loopback base mem) (GPIO_DATAI_REG base)
      = (((load mem (GPIO_DATAO_REG base) &&& 0xFF) &&& (load mem (GPIO_DIR_REG base) &&& 0xFF))
          ||| ((load mem (GPIO_DATAI_REG base) &&& 0xFF)
                &&& (0xFF - (load mem (GPIO_DIR_REG base) &&& 0xFF)))) % 2 ^ 32 := by
  simp only [hw_loopback, load_store_same]

/-- C15: with the pads looped back (the environment, modelled from the spec), for either
bank base, every bus state whose DIR is 0xFF and every value `v ≤ 255`, `gpio_read base`
after `gpio_write base v` returns `v`.  On the bus alone the write leaves DATAI, and so the
value read, as it was. -/
theorem gpio_write_read_loopback (base v : Nat) (mem : Mem)
    (hb : base = GPIO0_BASE ∨ base = GPIO1_BASE)
    (hdir : load mem (GPIO_DIR_REG base) = 0xFF) (hv : v ≤ 255) :
    (gpio_read base (hw_loopback base (gpio_write base v mem))).1 = v ∧
    (gpio_read base (gpio_write base v mem)).1 = (gpio_read base mem).1 ∧
    GPIO_DATAO_REG base = base + 0x0004 := by
  have hv8 : v % 2 ^ 8 = v := Nat.mod_eq_of_lt (by omega)
  have hdo : load (gpio_write base v mem) (GPIO_DATAO_REG base) = v := by
    rw [gpio_write_eq, load_store_same, byte_lt_word, hv8]
  have hdr : load (gpio_write base v mem) (GPIO_DIR_REG base) = 0xFF := by
    rw [gpio_write_eq, load_store_other _ _ _ _ (dir_ne_datao base), hdir]
  have hdi : load (gpio_write base v mem) (GPIO_DATAI_REG base)
      = load mem (GPIO_DATAI_REG base) := by
    rw [gpio_write_eq, load_store_other _ _ _ _ (datai_ne_datao base)]
  refine ⟨?_, ?_, ?_⟩
  · rw [gpio_read_fst, hw_loopback_datai, hdo, hdr]
    have h1 : (0xFF : Nat) &&& 0xFF = 0xFF := by decide
    have h2 : (0xFF : Nat) - 0xFF = 0 := by decide
    rw [h1, h2, Nat.and_zero, Nat.or_zero, and_0xFF, and_0xFF, and_0xFF, Nat.mod_mod,
      hv8, Nat.mod_mod_of_dvd _ (by norm_num), hv8, hv8]
  · rw [gpio_read_fst, gpio_read_fst, hdi]
  · rcases hb with h | h <;> subst h <;> decide

theorem gpio_write_read_loopback_witness :
    (GPIO1_BASE = GPIO0_BASE ∨ GPIO1_BASE = GPIO1_BASE) ∧
      load (fun a => if a = 0x30010008 then 0xFF else 0) (GPIO_DIR_REG GPIO1_BASE) = 0xFF ∧
      0xCC ≤ 255 ∧
      (gpio_read GPIO1_BASE (hw_loopback GPIO1_BASE
          (gpio_write GPIO1_BASE 0xCC (fun a => if a = 0x30010008 then 0xFF else 0)))).1
        = 0xCC :=
  ⟨Or.inr rfl, by decide, by decide,
    (gpio_write_read_loopback GPIO1_BASE 0xCC
      (fun a => if a = 0x30010008 then 0xFF else 0) (Or.inr rfl) (by decide) (by decide)).1⟩

/-! ## Register map and frame conditions -/

/-- Every operation either leaves the bus alone or is one store to a register of its own
bank. -/
theorem run_is_store (base : Nat) (op : GpioOp) (mem : Mem) :
    op.run base mem = mem ∨ ∃ x ∈ bankRegs base, ∃ v, op.run base mem = store mem x v := by
  cases op with
  | set_direction m =>
    exact Or.inr ⟨_, by simp [bankRegs], _, gpio_set_direction_eq base m mem⟩
  | write v => exact Or.inr ⟨_, by simp [bankRegs], _, gpio_write_eq base v mem⟩
  | read => exact Or.inl rfl
  | set_pin p => exact Or.inr ⟨_, by simp [bankRegs], _, gpio_set_pin_eq base p mem⟩
  | clear_pin p => exact Or.inr ⟨_, by simp [bankRegs], _, gpio_clear_pin_eq base p mem⟩
  | toggle_pin p => exact Or.inr ⟨_, by simp [bankRegs], _, gpio_toggle_pin_eq base p mem⟩
  | enable_irq m => exact Or.inr ⟨_, by simp [bankRegs], _, gpio_enable_irq_eq base m mem⟩
  | get_irq_status => exact Or.inl rfl
  | clear_irq m => exact Or.inr ⟨_, by simp [bankRegs], _, gpio_clear_irq_eq base m mem⟩

theorem run_frame (base : Nat) (op : GpioOp) (mem : Mem) (a : Nat)
    (ha : ∀ x ∈ bankRegs base, a ≠ x) : op.run base mem a = mem a := by
  rcases run_is_store base op mem with h | ⟨x, hx, v, h⟩
  · rw [h]
  · rw [h]
    simp only [store, if_neg (ha x hx)]

theorem bank0_apart : ∀ x ∈ bankRegs GPIO0_BASE,
    ∀ a ∈ bankRegs GPIO1_BASE ++ [VGPIO_REG_ADDR], a ≠ x := by
  decide

theorem bank1_apart : ∀ x ∈ bankRegs GPIO1_BASE,
    ∀ a ∈ bankRegs GPIO0_BASE ++ [VGPIO_REG_ADDR], a ≠ x := by
  decide

/-- C12: the fourteen addresses `base + offset` of the two banks and `VGPIO_REG_ADDR` are
fifteen pairwise distinct, 4-byte aligned 32-bit words that do not overlap, computed
without 32-bit overflow; so every `gpio_*` operation on one bank (called with arguments
in range) leaves the seven registers of the other bank and the virtual I/O latch
unchanged. -/
theorem register_map_disjoint :
    allRegs = [0x30000000, 0x30000004, 0x30000008, 0x3000FF00, 0x3000FF04, 0x3000FF08,
      0x3000FF0C, 0x30010000, 0x30010004, 0x30010008, 0x3001FF00, 0x3001FF04, 0x3001FF08,
      0x3001FF0C, 0x30FFFFFC] ∧
    (∀ base ∈ [GPIO0_BASE, GPIO1_BASE], bankRegs base
      = [base + GPIO_DATAI_OFFSET, base + GPIO_DATAO_OFFSET, base + GPIO_DIR_OFFSET,
          base + GPIO_IM_OFFSET, base + GPIO_MIS_OFFSET, base + GPIO_RIS_OFFSET,
          base + GPIO_IC_OFFSET]) ∧
    allRegs.Nodup ∧
    allRegs.Pairwise (fun a b => a + 4 ≤ b ∨ b + 4 ≤ a) ∧
    (∀ a ∈ allRegs, a % 4 = 0 ∧ a + 3 < 2 ^ 32) ∧
    (∀ (op : GpioOp) (mem : Mem), op.defined = true →
      ∀ a ∈ bankRegs GPIO1_BASE ++ [VGPIO_REG_ADDR], op.run GPIO0_BASE mem a = mem a) ∧
    (∀ (op : GpioOp) (mem : Mem), op.defined = true →
      ∀ a ∈ bankRegs GPIO0_BASE ++ [VGPIO_REG_ADDR], op.run GPIO1_BASE mem a = mem a) := by
  refine ⟨by decide, by decide, by decide, by decide, by decide, ?_, ?_⟩
  · intro op mem _ a ha
    exact run_frame GPIO0_BASE op mem a (fun x hx => bank0_apart x hx a ha)
  · intro op mem _ a ha
    exact run_frame GPIO1_BASE op mem a (fun x hx => bank1_apart x hx a ha)

theorem store_other (mem : Mem) (a b v : Nat) (h : b ≠ a) : store mem a v b = mem b := by
  simp only [store, if_neg h]

theorem reg_no_wrap (base off : Nat) (h : base + off < 2 ^ 32) :
    (base + off) % 2 ^ 32 = base + off :=
  Nat.mod_eq_of_lt h

/-- C13: for a base whose register block does not wrap and arguments in range, each
writing operation is one store of its argument and changes no other word:
`gpio_set_direction` at `base + 0x0008`, `gpio_write` at `base + 0x0004`,
`gpio_enable_irq` at `base + 0xFF00` and `gpio_clear_irq` at `base + 0xFF0C`, the last two
with the full 32-bit mask; `gpio_read` and `gpio_get_irq_status` leave the bus as it was
and return the low byte of the word at `base + 0x0000` and the word at `base + 0xFF04`. -/
theorem writes_exactly_one_register (base m v im ic : Nat) (mem : Mem)
    (hb : base + 0xFF0C < 2 ^ 32) (hm : m < 2 ^ 8) (hv : v < 2 ^ 8)
    (him : im < 2 ^ 32) (hic : ic < 2 ^ 32) :
    (gpio_set_direction base m mem = store mem (base + 0x0008) m ∧
      load (gpio_set_direction base m mem) (base + 0x0008) = m ∧
      ∀ a, a ≠ base + 0x0008 → gpio_set_direction base m mem a = mem a) ∧
    (gpio_write base v mem = store mem (base + 0x0004) v ∧
      load (gpio_write base v mem) (base + 0x0004) = v ∧
      ∀ a, a ≠ base + 0x0004 → gpio_write base v mem a = mem a) ∧
    (gpio_enable_irq base im mem = store mem (base + 0xFF00) im ∧
      load (gpio_enable_irq base im mem) (base + 0xFF00) = im ∧
      ∀ a, a ≠ base + 0xFF00 → gpio_enable_irq base im mem a = mem a) ∧
    (gpio_clear_irq base ic mem = store mem (base + 0xFF0C) ic ∧
      load (gpio_clear_irq base ic mem) (base + 0xFF0C) = ic ∧
      ∀ a, a ≠ base + 0xFF0C → gpio_clear_irq base ic mem a = mem a) ∧
    ((gpio_read base mem).2 = mem ∧
      (gpio_read base mem).1 = load mem (base + 0x0000) &&& 0xFF) ∧
    ((gpio_get_irq_status base mem).2 = mem ∧
      (gpio_get_irq_status base mem).1 = load mem (base + 0xFF04)) := by
  have hm8 : m % 2 ^ 8 = m := Nat.mod_eq_of_lt hm
  have hv8 : v % 2 ^ 8 = v := Nat.mod_eq_of_lt hv
  have him32 : im % 2 ^ 32 = im := Nat.mod_eq_of_lt him
  have hic32 : ic % 2 ^ 32 = ic := Nat.mod_eq_of_lt hic
  have hm32 : m % 2 ^ 32 = m := Nat.mod_eq_of_lt (by omega)
  have hv32 : v % 2 ^ 32 = v := Nat.mod_eq_of_lt (by omega)
  have a_dir : GPIO_DIR_REG base = base + 0x0008 :=
    reg_no_wrap base 0x0008 (by omega)
  have a_dato : GPIO_DATAO_REG base = base + 0x0004 :=
    reg_no_wrap base 0x0004 (by omega)
  have a_im : GPIO_IM_REG base = base + 0xFF00 :=
    reg_no_wrap base 0xFF00 (by omega)
  have a_ic : GPIO_IC_REG base = base + 0xFF0C :=
    reg_no_wrap base 0xFF0C (by omega)
  have a_dati : GPIO_DATAI_REG base = base + 0x0000 :=
    reg_no_wrap base 0x0000 (by omega)
  have a_mis : GPIO_MIS_REG base = base + 0xFF04 :=
    reg_no_wrap base 0xFF04 (by omega)
  have e1 : gpio_set_direction base m mem = store mem (base + 0x0008) m := by
    rw [gpio_set_direction_eq, a_dir, hm8]
  have e2 : gpio_write base v mem = store mem (base + 0x0004) v := by
    rw [gpio_write_eq, a_dato, hv8]
  have e3 : gpio_enable_irq base im mem = store mem (base + 0xFF00) im := by
    rw [gpio_enable_irq_eq, a_im, him32]
  have e4 : gpio_clear_irq base ic mem = store mem (base + 0xFF0C) ic := by
    rw [gpio_clear_irq_eq, a_ic, hic32]
  refine ⟨⟨e1, ?_, ?_⟩, ⟨e2, ?_, ?_⟩, ⟨e3, ?_, ?_⟩, ⟨e4, ?_, ?_⟩, ⟨rfl, ?_⟩, ⟨rfl, ?_⟩⟩
  · rw [e1, load_store_same, hm32]
  · intro a ha
    rw [e1, store_other _ _ _ _ ha]
  · rw [e2, load_store_same, hv32]
  · intro a ha
    rw [e2, store_other _ _ _ _ ha]
  · rw [e3, load_store_same, him32]
  · intro a ha
    rw [e3, store_other _ _ _ _ ha]
  · rw [e4, load_store_same, hic32]
  · intro a ha
    rw [e4, store_other _ _ _ _ ha]
  · rw [gpio_read_fst, a_dati, and_0xFF, Nat.mod_mod]
  · rw [gpio_get_irq_status_fst, a_mis]

theorem writes_exactly_one_register_witness :
    GPIO0_BASE + 0xFF0C < 2 ^ 32 ∧ 0x0F < 2 ^ 8 ∧ 0xAA < 2 ^ 8 ∧ 0x80000001 < 2 ^ 32 ∧
      0xFFFFFFFF < 2 ^ 32 ∧
      load (gpio_enable_irq GPIO0_BASE 0x80000001 (fun _ => 0)) (GPIO0_BASE + 0xFF00)
        = 0x80000001 :=
  ⟨by decide, by decide, by decide, by decide, by decide,
    (writes_exactly_one_register GPIO0_BASE 0x0F 0xAA 0x80000001 0xFFFFFFFF (fun _ => 0)
      (by decide) (by decide) (by decide) (by decide) (by decide)).2.2.1.2.1⟩

/-! ## Interrupt bit layout -/

/-- C14: as 32-bit values, for every pin `p` in 0..7 `GPIO_IRQ_P<p>HI = 2^p`,
`GPIO_IRQ_P<p>LO = 2^(8+p)`, `GPIO_IRQ_P<p>PE = 2^(16+p)` and `GPIO_IRQ_P<p>NE = 2^(24+p)`;
the thirty-two constants are single bits, pairwise disjoint, and their bitwise OR is
`0xFFFFFFFF`. -/
theorem irq_bit_layout :
    irqHI = (List.range 8).map (fun p => 2 ^ p) ∧
    irqLO = (List.range 8).map (fun p => 2 ^ (8 + p)) ∧
    irqPE = (List.range 8).map (fun p => 2 ^ (16 + p)) ∧
    irqNE = (List.range 8).map (fun p => 2 ^ (24 + p)) ∧
    irqAll = (List.range 32).map (fun n => 2 ^ n) ∧
    irqAll.length = 32 ∧
    irqAll.Pairwise (fun a b => a &&& b = 0) ∧
    irqAll.foldl (fun acc a => acc ||| a) 0 = 0xFFFFFFFF := by
  refine ⟨by decide, by decide, by decide, by decide, by decide, by decide, ?_, by decide⟩
  decide

/-! ## Pin helpers: repetition and out-of-range pins -/

theorem set_val_high_pin (d p : Nat) (h8 : 8 ≤ p) (h30 : p ≤ 30) :
    ((d &&& 0xFF) % 2 ^ 8 ||| shl1 (p % 2 ^ 8)) % 2 ^ 8 = d &&& 0xFF := by
  have hp8 : p % 2 ^ 8 = p := Nat.mod_eq_of_lt (by omega)
  rw [hp8]
  apply Nat.eq_of_testBit_eq
  intro q
  rw [set_val_testBit d p q (by omega), and_0xFF, Nat.testBit_mod_two_pow]
  by_cases hq : q < 8
  · have : q ≠ p := by omega
    simp [hq, this]
  · simp [hq]

theorem clear_val_high_pin (d p : Nat) (h8 : 8 ≤ p) (h30 : p ≤ 30) :
    ((d &&& 0xFF) % 2 ^ 8 &&& not32 (shl1 (p % 2 ^ 8))) % 2 ^ 8 = d &&& 0xFF := by
  have hp8 : p % 2 ^ 8 = p := Nat.mod_eq_of_lt (by omega)
  rw [hp8]
  apply Nat.eq_of_testBit_eq
  intro q
  rw [clear_val_testBit d p q (by omega), and_0xFF, Nat.testBit_mod_two_pow]
  by_cases hq : q < 8
  · have : q ≠ p := by omega
    simp [hq, this]
  · simp [hq]

theorem toggle_val_high_pin (d p : Nat) (h8 : 8 ≤ p) (h30 : p ≤ 30) :
    ((d &&& 0xFF) % 2 ^ 8 ^^^ shl1 (p % 2 ^ 8)) % 2 ^ 8 = d &&& 0xFF := by
  have hp8 : p % 2 ^ 8 = p := Nat.mod_eq_of_lt (by omega)
  rw [hp8]
  apply Nat.eq_of_testBit_eq
  intro q
  rw [toggle_val_testBit d p q (by omega), and_0xFF, Nat.testBit_mod_two_pow]
  by_cases hq : q < 8
  · have : q ≠ p := by omega
    simp [hq, this]
  · simp [hq]

/-- C17: for every bus state and every pin index `p` with `8 ≤ p ≤ 30`, each of
`gpio_set_pin`, `gpio_clear_pin` and `gpio_toggle_pin` is one store to DATAO of the
unmodified low byte of DATAI, `DATAI & 0xFF`: the selected bit lies outside the byte and
the conversion to `uint8_t` drops it. -/
theorem pin_helpers_out_of_range (base p : Nat) (mem : Mem) (h8 : 8 ≤ p) (h30 : p ≤ 30) :
    gpio_set_pin base p mem
        = store mem (GPIO_DATAO_REG base) (load mem (GPIO_DATAI_REG base) &&& 0xFF) ∧
    gpio_clear_pin base p mem
        = store mem (GPIO_DATAO_REG base) (load mem (GPIO_DATAI_REG base) &&& 0xFF) ∧
    gpio_toggle_pin base p mem
        = store mem (GPIO_DATAO_REG base) (load mem (GPIO_DATAI_REG base) &&& 0xFF) ∧
    load (gpio_set_pin base p mem) (GPIO_DATAO_REG base)
        = load mem (GPIO_DATAI_REG base) &&& 0xFF ∧
    load (gpio_clear_pin base p mem) (GPIO_DATAO_REG base)
        = load mem (GPIO_DATAI_REG base) &&& 0xFF ∧
    load (gpio_toggle_pin base p mem) (GPIO_DATAO_REG base)
        = load mem (GPIO_DATAI_REG base) &&& 0xFF := by
  have hs := set_val_high_pin (load mem (GPIO_DATAI_REG base)) p h8 h30
  have hc := clear_val_high_pin (load mem (GPIO_DATAI_REG base)) p h8 h30
  have ht := toggle_val_high_pin (load mem (GPIO_DATAI_REG base)) p h8 h30
  have hb : (load mem (GPIO_DATAI_REG base) &&& 0xFF) % 2 ^ 32
      = load mem (GPIO_DATAI_REG base) &&& 0xFF := by
    rw [and_0xFF, byte_lt_word]
  refine ⟨?_, ?_, ?_, ?_, ?_, ?_⟩
  · rw [gpio_set_pin_eq, hs]
  · rw [gpio_clear_pin_eq, hc]
  · rw [gpio_toggle_pin_eq, ht]
  · rw [gpio_set_pin_eq, hs, load_store_same, hb]
  · rw [gpio_clear_pin_eq, hc, load_store_same, hb]
  · rw [gpio_toggle_pin_eq, ht, load_store_same, hb]

theorem pin_helpers_out_of_range_witness :
    (8 : Nat) ≤ 8 ∧ (8 : Nat) ≤ 30 ∧
      load (gpio_toggle_pin GPIO0_BASE 8 (fun _ => 0x12A5)) (GPIO_DATAO_REG GPIO0_BASE)
        = 0xA5 :=
  ⟨by decide, by decide,
    (pin_helpers_out_of_range GPIO0_BASE 8 (fun _ => 0x12A5) (by decide)
      (by decide)).2.2.2.2.2.trans (by decide)⟩

theorem gpio_set_pin_twice (base p : Nat) (mem : Mem) :
    gpio_set_pin base p (gpio_set_pin base p mem) = gpio_set_pin base p mem := by
  rw [gpio_set_pin_eq, gpio_set_pin_eq, load_store_other _ _ _ _ (datai_ne_datao base),
    store_store_same]

theorem gpio_clear_pin_twice (base p : Nat) (mem : Mem) :
    gpio_clear_pin base p (gpio_clear_pin base p mem) = gpio_clear_pin base p mem := by
  rw [gpio_clear_pin_eq, gpio_clear_pin_eq, load_store_other _ _ _ _ (datai_ne_datao base),
    store_store_same]

theorem gpio_toggle_pin_twice (base p : Nat) (mem : Mem) :
    gpio_toggle_pin base p (gpio_toggle_pin base p mem) = gpio_toggle_pin base p mem := by
  rw [gpio_toggle_pin_eq, gpio_toggle_pin_eq,
    load_store_other _ _ _ _ (datai_ne_datao base), store_store_same]

theorem gpio_toggle_pin_datao (base p : Nat) (mem : Mem) (hp : p ≤ 7) :
    load (gpio_toggle_pin base p mem) (GPIO_DATAO_REG base)
      = (load mem (GPIO_DATAI_REG base) &&& 0xFF) ^^^ (1 <<< p) := by
  rw [gpio_toggle_pin_eq, load_store_same, byte_lt_word, toggle_val_eq _ p hp]

/-- C16 (amended): on the bus alone (DATAI is not fed back between calls) and for every
pin `p ≤ 7`, each pin helper applied twice leaves the bus exactly as one application does.
After two calls of `gpio_toggle_pin` DATAO is `(DATAI & 0xFF) ^ (1 << p)`, the low byte of
DATAI with bit `p` flipped, and a previous DATAO different from that value is not restored.
The DATAO a helper leaves is the same from any two states with the same DATAI. -/
theorem pin_helpers_idempotent (base p : Nat) (mem : Mem) (hp : p ≤ 7) :
    (gpio_toggle_pin base p (gpio_toggle_pin base p mem) = gpio_toggle_pin base p mem ∧
      gpio_set_pin base p (gpio_set_pin base p mem) = gpio_set_pin base p mem ∧
      gpio_clear_pin base p (gpio_clear_pin base p mem) = gpio_clear_pin base p mem) ∧
    load (gpio_toggle_pin base p mem) (GPIO_DATAI_REG base)
      = load mem (GPIO_DATAI_REG base) ∧
    load (gpio_toggle_pin base p (gpio_toggle_pin base p mem)) (GPIO_DATAO_REG base)
      = (load mem (GPIO_DATAI_REG base) &&& 0xFF) ^^^ (1 <<< p) ∧
    (load mem (GPIO_DATAO_REG base)
        ≠ (load mem (GPIO_DATAI_REG base) &&& 0xFF) ^^^ (1 <<< p) →
      load (gpio_toggle_pin base p (gpio_toggle_pin base p mem)) (GPIO_DATAO_REG base)
        ≠ load mem (GPIO_DATAO_REG base)) ∧
    (∀ mem2 : Mem, load mem2 (GPIO_DATAI_REG base) = load mem (GPIO_DATAI_REG base) →
      load (gpio_toggle_pin base p mem2) (GPIO_DATAO_REG base)
          = load (gpio_toggle_pin base p mem) (GPIO_DATAO_REG base) ∧
      load (gpio_set_pin base p mem2) (GPIO_DATAO_REG base)
          = load (gpio_set_pin base p mem) (GPIO_DATAO_REG base) ∧
      load (gpio_clear_pin base p mem2) (GPIO_DATAO_REG base)
          = load (gpio_clear_pin base p mem) (GPIO_DATAO_REG base)) := by
  have h2 : load (gpio_toggle_pin base p (gpio_toggle_pin base p mem)) (GPIO_DATAO_REG base)
      = (load mem (GPIO_DATAI_REG base) &&& 0xFF) ^^^ (1 <<< p) := by
    rw [gpio_toggle_pin_twice, gpio_toggle_pin_datao base p mem hp]
  refine ⟨⟨gpio_toggle_pin_twice base p mem, gpio_set_pin_twice base p mem,
    gpio_clear_pin_twice base p mem⟩, ?_, h2, ?_, ?_⟩
  · rw [gpio_toggle_pin_eq, load_store_other _ _ _ _ (datai_ne_datao base)]
  · intro hne
    rw [h2]
    exact fun e => hne e.symm
  · intro mem2 h
    refine ⟨?_, ?_, ?_⟩
    · rw [gpio_toggle_pin_eq, gpio_toggle_pin_eq, load_store_same, load_store_same, h]
    · rw [gpio_set_pin_eq, gpio_set_pin_eq, load_store_same, load_store_same, h]
    · rw [gpio_clear_pin_eq, gpio_clear_pin_eq, load_store_same, load_store_same, h]

theorem pin_helpers_idempotent_witness :
    (0 : Nat) ≤ 7 ∧
      load (gpio_toggle_pin GPIO0_BASE 0 (gpio_toggle_pin GPIO0_BASE 0
          (fun a => if a = 0x30000000 then 0xA5 else 0))) (GPIO_DATAO_REG GPIO0_BASE)
        = 0xA4 ∧
      load (fun a => if a = 0x30000000 then 0xA5 else 0) (GPIO_DATAO_REG GPIO0_BASE)
        = 0x00 :=
  ⟨by decide,
    (pin_helpers_idempotent GPIO0_BASE 0 (fun a => if a = 0x30000000 then 0xA5 else 0)
      (by decide)).2.2.1.trans (by decide),
    by decide⟩

/-- C16 as stated fails: with the DATAI word `0x12A5` and `p = 0`, two calls of
`gpio_toggle_pin` leave DATAO at `0xA4`, while `DATAI ^ (1 << p)` is `0x12A4`; so DATAO is
not `DATAI ^ (1 << p)` for every bus state and every pin `p ≤ 7`. -/
theorem pin_helpers_idempotent_counterexample :
    load (gpio_toggle_pin GPIO0_BASE 0 (gpio_toggle_pin GPIO0_BASE 0 (fun _ => 0x12A5)))
        (GPIO_DATAO_REG GPIO0_BASE) = 0xA4 ∧
    load (fun _ => 0x12A5) (GPIO_DATAI_REG GPIO0_BASE) ^^^ (1 <<< 0) = 0x12A4 ∧
    ¬ ∀ (base p : Nat) (mem : Mem), p ≤ 7 →
      load (gpio_toggle_pin base p (gpio_toggle_pin base p mem)) (GPIO_DATAO_REG base)
        = load mem (GPIO_DATAI_REG base) ^^^ (1 <<< p) := by
  refine ⟨by decide, by decide, ?_⟩
  intro h
  exact absurd (h GPIO0_BASE 0 (fun _ => 0x12A5) (by decide)) (by decide)

/-! ## Reserved bits of DIR and DATAO -/

theorem im_ne_dir (base : Nat) : GPIO_IM_REG base ≠ GPIO_DIR_REG base := by
  simp only [GPIO_IM_REG, GPIO_DIR_REG, GPIO_IM_OFFSET, GPIO_DIR_OFFSET]
  omega

theorem im_ne_datao (base : Nat) : GPIO_IM_REG base ≠ GPIO_DATAO_REG base := by
  simp only [GPIO_IM_REG, GPIO_DATAO_REG, GPIO_IM_OFFSET, GPIO_DATAO_OFFSET]
  omega

theorem ic_ne_dir (base : Nat) : GPIO_IC_REG base ≠ GPIO_DIR_REG base := by
  simp only [GPIO_IC_REG, GPIO_DIR_REG, GPIO_IC_OFFSET, GPIO_DIR_OFFSET]
  omega

theorem ic_ne_datao (base : Nat) : GPIO_IC_REG base ≠ GPIO_DATAO_REG base := by
  simp only [GPIO_IC_REG, GPIO_DATAO_REG, GPIO_IC_OFFSET, GPIO_DATAO_OFFSET]
  omega

theorem byte_val_lt (x : Nat) : x % 2 ^ 8 % 2 ^ 32 < 256 := by
  rw [byte_lt_word]
  exact Nat.mod_lt _ (by norm_num)

theorem store_byte_kept (mem : Mem) (a b v : Nat) (hb : load mem b < 256)
    (hv : a = b → v % 2 ^ 32 < 256) : load (store mem a v) b < 256 := by
  by_cases h : b = a
  · subst h
    rw [load_store_same]
    exact hv rfl
  · rw [load_store_other _ _ _ _ h]
    exact hb

/-- A store of a byte to DATAO keeps both DIR and DATAO below 256. -/
theorem datao_store_inv (base x : Nat) (mem : Mem)
    (h : load mem (GPIO_DIR_REG base) < 256 ∧ load mem (GPIO_DATAO_REG base) < 256) :
    load (store mem (GPIO_DATAO_REG base) (x % 2 ^ 8)) (GPIO_DIR_REG base) < 256 ∧
    load (store mem (GPIO_DATAO_REG base) (x % 2 ^ 8)) (GPIO_DATAO_REG base) < 256 :=
  ⟨store_byte_kept _ _ _ _ h.1 (fun e => absurd e.symm (dir_ne_datao base)),
    store_byte_kept _ _ _ _ h.2 (fun _ => byte_val_lt x)⟩

theorem run_keeps_bytes (base : Nat) (op : GpioOp) (mem : Mem)
    (h : load mem (GPIO_DIR_REG base) < 256 ∧ load mem (GPIO_DATAO_REG base) < 256) :
    load (op.run base mem) (GPIO_DIR_REG base) < 256 ∧
    load (op.run base mem) (GPIO_DATAO_REG base) < 256 := by
  cases op with
  | set_direction m =>
    simp only [GpioOp.run, gpio_set_direction_eq]
    exact ⟨store_byte_kept _ _ _ _ h.1 (fun _ => byte_val_lt m),
      store_byte_kept _ _ _ _ h.2 (fun e => absurd e (dir_ne_datao base))⟩
  | write v =>
    simp only [GpioOp.run, gpio_write_eq]
    exact datao_store_inv base v mem h
  | read => exact h
  | set_pin p =>
    simp only [GpioOp.run, gpio_set_pin_eq]
    exact datao_store_inv base _ mem h
  | clear_pin p =>
    simp only [GpioOp.run, gpio_clear_pin_eq]
    exact datao_store_inv base _ mem h
  | toggle_pin p =>
    simp only [GpioOp.run, gpio_toggle_pin_eq]
    exact datao_store_inv base _ mem h
  | enable_irq m =>
    simp only [GpioOp.run, gpio_enable_irq_eq]
    exact ⟨store_byte_kept _ _ _ _ h.1 (fun e => absurd e (im_ne_dir base)),
      store_byte_kept _ _ _ _ h.2 (fun e => absurd e (im_ne_datao base))⟩
  | get_irq_status => exact h
  | clear_irq m =>
    simp only [GpioOp.run, gpio_clear_irq_eq]
    exact ⟨store_byte_kept _ _ _ _ h.1 (fun e => absurd e (ic_ne_dir base)),
      store_byte_kept _ _ _ _ h.2 (fun e => absurd e (ic_ne_datao base))⟩

/-- C18: for every `gpio_*` operation called with arguments in range (pin indices up to
30) on a bank, if DIR and DATAO of that bank are below 256 before the call they are below
256 after it; and from any prior state `gpio_write`, `gpio_set_pin`, `gpio_clear_pin` and
`gpio_toggle_pin` leave DATAO below 256 and `gpio_set_direction` leaves DIR below 256. -/
theorem byte_registers_invariant (base : Nat) (op : GpioOp) (mem : Mem)
    (_hop : op.defined = true) :
    (load mem (GPIO_DIR_REG base) < 256 ∧ load mem (GPIO_DATAO_REG base) < 256 →
      load (op.run base mem) (GPIO_DIR_REG base) < 256 ∧
      load (op.run base mem) (GPIO_DATAO_REG base) < 256) ∧
    (∀ v, load (gpio_write base v mem) (GPIO_DATAO_REG base) < 256) ∧
    (∀ p, p ≤ 30 →
      load (gpio_set_pin base p mem) (GPIO_DATAO_REG base) < 256 ∧
      load (gpio_clear_pin base p mem) (GPIO_DATAO_REG base) < 256 ∧
      load (gpio_toggle_pin base p mem) (GPIO_DATAO_REG base) < 256) ∧
    (∀ m, load (gpio_set_direction base m mem) (GPIO_DIR_REG base) < 256) := by
  refine ⟨run_keeps_bytes base op mem, ?_, ?_, ?_⟩
  · intro v
    rw [gpio_write_eq, load_store_same]
    exact byte_val_lt v
  · intro p _
    refine ⟨?_, ?_, ?_⟩
    · rw [gpio_set_pin_eq, load_store_same]
      exact byte_val_lt _
    · rw [gpio_clear_pin_eq, load_store_same]
      exact byte_val_lt _
    · rw [gpio_toggle_pin_eq, load_store_same]
      exact byte_val_lt _
  · intro m
    rw [gpio_set_direction_eq, load_store_same]
    exact byte_val_lt m

theorem byte_registers_invariant_witness :
    (GpioOp.toggle_pin 30).defined = true ∧
      load (gpio_toggle_pin GPIO1_BASE 30 (fun _ => 0xFFFFFFFF)) (GPIO_DATAO_REG GPIO1_BASE)
        < 256 :=
  ⟨rfl,
    ((byte_registers_invariant GPIO1_BASE (GpioOp.toggle_pin 30) (fun _ => 0xFFFFFFFF)
      rfl).2.2.1 30 (by decide)).2.2⟩

/-! ## Virtual I/O latch: successive writes -/

/-- C19: for every bus state and all values `a` and `b` (so all 16-bit ones),
`vgpio_write_output a` followed by `vgpio_write_output b` leaves the bus as
`vgpio_write_output b` alone does; and when the latch holds the 32-bit value `r`,
`vgpio_write_output (r & 0xFFFF)` leaves the register equal to `r`. -/
theorem vgpio_last_write_wins (mem : Mem) (r a b : Nat) (hm : mem VGPIO_REG_ADDR = r)
    (hr : r < 2 ^ 32) :
    vgpio_write_output b (vgpio_write_output a mem) = vgpio_write_output b mem ∧
    load (vgpio_write_output b (vgpio_write_output a mem)) VGPIO_REG_ADDR
      = load (vgpio_write_output b mem) VGPIO_REG_ADDR ∧
    load (vgpio_write_output (r &&& 0xFFFF) mem) VGPIO_REG_ADDR = r ∧
    vgpio_write_output (r &&& 0xFFFF) mem = mem := by
  subst hm
  have h1 : vgpio_write_output b (vgpio_write_output a mem) = vgpio_write_output b mem := by
    funext x
    simp only [vgpio_write_output, load, store]
    by_cases hx : x = VGPIO_REG_ADDR
    · simp only [hx, if_true]
      apply Nat.eq_of_testBit_eq
      intro q
      simp only [Nat.testBit_mod_two_pow, Nat.testBit_or, Nat.testBit_and, and_0xFFFF,
        testBit_hi_mask]
      by_cases h16 : q < 16
      · have : q < 32 := by omega
        simp [h16, this]
      · by_cases h32 : q < 32 <;> simp [h16, h32]
    · simp only [if_neg hx]
  have hval : ((mem VGPIO_REG_ADDR % 2 ^ 32 &&& 0xFFFF0000)
      ||| ((mem VGPIO_REG_ADDR &&& 0xFFFF) % 2 ^ 16 &&& 0xFFFF)) % 2 ^ 32
        = mem VGPIO_REG_ADDR := by
    apply Nat.eq_of_testBit_eq
    intro q
    rw [vgpio_val_testBit, and_0xFFFF, Nat.testBit_mod_two_pow]
    by_cases h16 : q < 16
    · have : q < 32 := by omega
      simp [h16, this]
    · by_cases h32 : q < 32
      · simp [h16, h32]
      · have hrq : (mem VGPIO_REG_ADDR).testBit q = false :=
          Nat.testBit_lt_two_pow (lt_of_lt_of_le hr (Nat.pow_le_pow_right (by norm_num)
            (by omega)))
        simp [h16, h32, hrq]
  refine ⟨h1, by rw [h1], ?_, ?_⟩
  · rw [vgpio_write_output_eq, load_store_same, Nat.mod_mod, hval]
  · rw [vgpio_write_output_eq, hval]
    funext x
    simp only [store]
    by_cases hx : x = VGPIO_REG_ADDR
    · rw [if_pos hx, hx, Nat.mod_eq_of_lt hr]
    · rw [if_neg hx]

theorem vgpio_last_write_wins_witness :
    (fun _ => 0xBEEF1234 : Mem) VGPIO_REG_ADDR = 0xBEEF1234 ∧ 0xBEEF1234 < 2 ^ 32 ∧
      load (vgpio_write_output 0x0002 (vgpio_write_output 0x0001 (fun _ => 0xBEEF1234)))
          VGPIO_REG_ADDR
        = load (vgpio_write_output 0x0002 (fun _ => 0xBEEF1234)) VGPIO_REG_ADDR :=
  ⟨rfl, by decide,
    (vgpio_last_write_wins (fun _ => 0xBEEF1234) 0xBEEF1234 0x0001 0x0002 rfl
      (by decide)).2.1⟩

end Gpio
